import Mathlib

/-!
Verification development for the DAO wallet module
(src/chia/wallet/dao_wallet/dao_wallet.py).

The embedding is shallow and symbolic: CLVM programs, puzzles and 32-byte
hashes are merged into one inductive type of symbolic objects in which
tree-hashing and coin-id computation are free (hence injective)
constructors.  External collaborators (peer network, standard wallet,
CAT wallet, persistence store) are modelled as explicit oracles passed to
each operation; async calls become ordinary function calls on those
oracles.  Python exceptions are modelled with an explicit error type and
Except; in-place mutation of self.dao_info becomes explicit state passing.
-/

deriving instance DecidableEq for Except

namespace DaoSpec

/-- Symbolic universe for CLVM programs, puzzles and 32-byte values.
Tree hashing (Program.get_tree_hash) and coin ids (Coin.name, the hash of
parent id, puzzle hash and amount) are free constructors, which models
collision-free hashing.  External pure puzzle constructors that live
outside src/ are modelled from the spec as free constructors:
launcherPuz is SINGLETON_LAUNCHER, treasuryPuz is
get_treasury_puzzle(launcher_id, cat_tail_hash, supply, attendance, pass,
timelock), proposalPuz is get_proposal_puzzle, curried is
curry_singleton(id, inner), decodedPuz is
get_new_puzzle_from_treasury_solution(old_inner, inner_solution) and
catTail is generate_cat_tail(cat_origin_id, launcher_id). -/
inductive Obj where
  | raw : Nat → Obj
  | treeHash : Obj → Obj
  | coinId : Obj → Obj → Nat → Obj
  | natAtom : Nat → Obj
  | nilO : Obj
  | consO : Obj → Obj → Obj
  | launcherPuz : Obj
  | treasuryPuz : Obj → Obj → Nat → Nat → Nat → Nat → Obj
  | proposalPuz : Obj → Obj → Obj → Obj → Obj
  | curried : Obj → Obj → Obj
  | decodedPuz : Obj → Obj → Obj
  | catTail : Obj → Obj → Obj
  deriving DecidableEq, Repr

/-- Program.to applied to a python list of objects. -/
def listO : List Obj → Obj
  | [] => .nilO
  | x :: xs => .consO x (listO xs)

/-- Coin: immutable (parent id, puzzle hash, amount), as in
chia.types.blockchain_format.coin. -/
structure Coin where
  parentCoinInfo : Obj
  puzzleHash : Obj
  amount : Nat
  deriving DecidableEq, Repr

/-- Coin.name(): the hash of the three coin fields, here a free
constructor. -/
def Coin.name (c : Coin) : Obj :=
  .coinId c.parentCoinInfo c.puzzleHash c.amount

/-- LineageProof from chia.wallet.lineage_proof: (parent_coin_info,
inner_puzzle_hash, amount). -/
structure LineageProof where
  parentCoinInfo : Obj
  innerPuzzleHash : Obj
  amount : Nat
  deriving DecidableEq, Repr

/-- CoinState as returned by WalletNode.fetch_children. -/
structure CoinState where
  coin : Coin
  createdHeight : Option Nat
  spentHeight : Option Nat
  deriving DecidableEq, Repr

/-- A coin spend: (coin, puzzle_reveal, solution). -/
structure CoinSpendT where
  coin : Coin
  puzzleReveal : Obj
  solution : Obj
  deriving DecidableEq, Repr

/-- Spend bundle; the BLS aggregate signature is irrelevant to every
claim and is omitted. -/
structure SpendBundleT where
  coinSpends : List CoinSpendT
  deriving DecidableEq, Repr

/-- SpendBundle.aggregate: concatenates the coin spends of the bundles in
order. -/
def SpendBundleT.aggregate (bs : List SpendBundleT) : SpendBundleT :=
  ⟨bs.foldr (fun b acc => b.coinSpends ++ acc) []⟩

/-- Python exceptions raised (directly or by library calls) in the
source.  fuelExhausted is an artifact of bounding the resync while-loop
with fuel; it never occurs on runs the claims are about. -/
inductive PyErr where
  | valueError
  | assertionError
  | attributeError
  | keyError
  | indexError
  | typeError
  | fuelExhausted
  deriving DecidableEq, Repr

/-- Modelled from the spec: DAOInfo lives in
chia.wallet.dao_wallet.dao_info which is not under src/.  Per the spec's
DAOState and every six-argument DAOInfo construction in the source file
(lines 114, 170, 454, 604, 625, 711, 846), it has exactly the six fields
(treasury_id, cat_wallet_id, proposals_list, parent_info,
current_treasury_coin, current_treasury_innerpuz).  ProposalInfo is
opaque to every claim, so proposal entries are represented by opaque
ids. -/
structure DAOInfo where
  treasuryId : Obj
  catWalletId : Nat
  proposalsList : List Nat
  parentInfo : List (Obj × Option LineageProof)
  currentTreasuryCoin : Option Coin
  currentTreasuryInnerpuz : Option Obj
  deriving DecidableEq, Repr

/-! ## Balance queries (lines 225-234, 833-840) -/

/-- get_confirmed_balance: returns uint128(0) for any record list. -/
def getConfirmedBalance (_recordList : Option (List Nat)) : Nat := 0

/-- get_pending_change_balance: returns uint64(0). -/
def getPendingChangeBalance : Nat := 0

/-- get_frozen_amount: returns uint64(0). -/
def getFrozenAmount : Nat := 0

/-- get_spendable_balance: returns uint128(0) for any record set. -/
def getSpendableBalance (_unspentRecords : Option (List Nat)) : Nat := 0

/-- get_max_send_amount: returns uint128(0). -/
def getMaxSendAmount (_records : Option (List Nat)) : Nat := 0

/-- get_unconfirmed_balance: delegates to
wallet_state_manager.get_unconfirmed_balance(self.id(), record_list);
the host's answer is the oracle function applied to the wallet id. -/
def getUnconfirmedBalance (wsmUnconfirmed : Nat → Nat) (walletId : Nat) : Nat :=
  wsmUnconfirmed walletId

/-! ## select_coins (lines 236-277) -/

/-- Oracle for DAOWallet.select_coins: the spendable coin records the
wallet state manager reports for this wallet, and the external
chia.wallet.coin_selection.select_coins algorithm (which may itself
fail, modelled by Option). -/
structure SelectOracle where
  spendableCoinsForWallet : List Coin
  selectCoinsAlgo : Nat → List Coin → Option (List Coin)

/-- DAOWallet.select_coins.  The Bool records whether the external
coin-selection algorithm was invoked.  The guard compares the requested
amount against get_spendable_balance; on the selection path the source's
final assert (sum of selected amounts covers the request) is modelled as
an assertionError. -/
def daoSelectCoins (o : SelectOracle) (amount : Nat) :
    Except PyErr (Option (List Coin)) × Bool :=
  let spendableAmount := getSpendableBalance none
  if amount > spendableAmount then
    (.ok none, false)
  else
    match o.selectCoinsAlgo amount o.spendableCoinsForWallet with
    | none => (.error .valueError, true)
    | some coins =>
      if amount ≤ coins.foldr (fun c a => c.amount + a) 0 then
        (.ok (some coins), true)
      else
        (.error .assertionError, true)

/-! ## coin_added (lines 280-327) and its DID-era helpers -/

/-- Modelled from the spec: reading self.dao_info.origin_coin.  The
six-field DAOInfo record has no origin_coin attribute, so in Python the
dataclass attribute access raises AttributeError. -/
def DAOInfo.originCoinAttr (_ : DAOInfo) : Except PyErr (Option Coin) :=
  .error .attributeError

/-- Modelled from the spec: reading self.dao_info.temp_coin, another
attribute absent from the six-field DAOInfo record. -/
def DAOInfo.tempCoinAttr (_ : DAOInfo) : Except PyErr (Option Coin) :=
  .error .attributeError

/-- Modelled from the spec: reading self.dao_info.backup_ids, absent
from the six-field DAOInfo record. -/
def DAOInfo.backupIdsAttr (_ : DAOInfo) : Except PyErr (List Obj) :=
  .error .attributeError

/-- inner_puzzle_for_did_puzzle (lines 537-549): its first real step is
`assert self.dao_info.origin_coin is not None`, whose attribute read
raises; the subsequent reads of backup_ids, num_of_backup_ids_needed and
metadata are likewise reads of absent attributes, so no branch can
produce a puzzle. -/
def innerPuzzleForDidPuzzle (info : DAOInfo) (_didHash : Obj) : Except PyErr Obj :=
  match info.originCoinAttr with
  | .error e => .error e
  | .ok _ =>
    match info.backupIdsAttr with
    | .error e => .error e
    | .ok _ => .error .attributeError

/-- coin_added (lines 280-299): calls inner_puzzle_for_did_puzzle, then
reads self.dao_info.temp_coin and origin_coin/backup_ids/... while
constructing a DAOInfo with ten arguments (a TypeError against the
six-field record).  Every path errors before any DAOInfo update or
lineage append. -/
def coinAdded (info : DAOInfo) (coin : Coin) : Except PyErr DAOInfo :=
  match innerPuzzleForDidPuzzle info coin.puzzleHash with
  | .error e => .error e
  | .ok _ =>
    match info.tempCoinAttr with
    | .error e => .error e
    | .ok _ => .error .typeError

/-! ## Spend construction: generate_new_dao (lines 559-720) and helpers -/

/-- TransactionRecord as far as generate_new_dao inspects it: only the
spend_bundle field is read. -/
structure TxRecord where
  spendBundle : Option SpendBundleT
  deriving DecidableEq, Repr

/-- Oracle for the standard (XCH) wallet collaborator: select_coins
(amount, exclude list) and generate_signed_transaction (amount,
destination puzzle hash, fee, origin id, coins).  The announcement set
and flag arguments of generate_signed_transaction do not influence the
fields the claims inspect and are omitted from the oracle's domain. -/
structure StdWallet where
  selectCoins : Nat → List Coin → Option (List Coin)
  genSignedTx : Nat → Obj → Nat → Obj → List Coin → Option TxRecord

/-- Wallet types from chia.wallet.util.wallet_types as used here. -/
inductive WType where
  | standard
  | dao
  | cat
  | daoCat
  deriving DecidableEq, Repr

/-- The user store's wallet records: a fresh-id counter and the list of
(wallet id, wallet type) records. -/
structure Store where
  nextId : Nat
  recs : List (Nat × WType)
  deriving DecidableEq, Repr

/-- user_store.create_wallet: returns the fresh wallet id and the
extended store. -/
def Store.createWallet (st : Store) (t : WType) : Nat × Store :=
  (st.nextId, ⟨st.nextId + 1, st.recs ++ [(st.nextId, t)]⟩)

/-- user_store.delete_wallet: removes the record with the given id. -/
def Store.deleteWallet (st : Store) (wid : Nat) : Store :=
  ⟨st.nextId, st.recs.filter (fun r => r.1 ≠ wid)⟩

/-- Oracle for DAOCATWallet.create_new_cat_wallet (external): whether
creation (which also mints the CATs) succeeds.  On success the store
gains a DAO_CAT wallet record under the store's fresh id. -/
structure CatOracle where
  createSucceeds : Bool

/-- Result of generate_new_dao.  selectLog records each
standard-wallet select_coins request (amount, exclude) in call order;
store is the user store after the call; info is self.dao_info after the
call (Python mutates it in place via save_info, so it is returned even
when the call raises); result is the returned Optional[SpendBundle] or
the exception. -/
structure GenOut where
  selectLog : List (Nat × List Coin)
  store : Store
  info : DAOInfo
  result : Except PyErr (Option SpendBundleT)
  deriving Repr

/-- generate_treasury_eve_spend (lines 722-744): one coin spend of the
eve coin with the full treasury puzzle and solution
(lineage_proof, my_amount, inner_solution), where inner_solution is
(my_amount, 0, inner puzzle hash, (), 0).  Note the origin_coin
argument is the launcher coin at the call site. -/
def generateTreasuryEveSpend (coin : Coin) (fullPuzzle innerpuz : Obj)
    (originCoin : Coin) : SpendBundleT :=
  let innerSol := listO [.natAtom coin.amount, .natAtom 0, .treeHash innerpuz,
    .nilO, .natAtom 0]
  let fullsol := listO
    [listO [originCoin.parentCoinInfo, .natAtom originCoin.amount],
     .natAtom coin.amount, innerSol]
  ⟨[⟨coin, fullPuzzle, fullsol⟩]⟩

/-- generate_new_dao (lines 559-720), following the source's statement
order.  Notes kept from the source: only proposal_pass_percentage is
validated (line 571; the < 0 arm can never fire on an unsigned int, and
attendance_required_percentage is not checked at all); set.pop() of the
selected coins is modelled as taking the list head; the
`self.dao_info.cat_wallet_id is None` branch (line 590) can never fire
because that field is an int, so the fresh cat tail is always generated;
the final DAOInfo built at line 711 is never passed to save_info, so the
returned info still has the state from the add_parent calls (lines
671-672); breakpoint() at line 719 is a debugger hook with no state
effect. -/
def generateNewDao (std : StdWallet) (cat : CatOracle) (store : Store)
    (s : DAOInfo) (amountOfCats attendanceRequiredPercentage
    proposalPassPercentage proposalTimelock fee : Nat) : GenOut :=
  if proposalPassPercentage > 10000 then
    ⟨[], store, s, .error .valueError⟩
  else
    let req1 := (fee + 1, ([] : List Coin))
    match std.selectCoins (fee + 1) [] with
    | none => ⟨[req1], store, s, .ok none⟩
    | some coins =>
      match coins with
      | [] => ⟨[req1], store, s, .error .keyError⟩
      | origin :: _ =>
        let req2 := (amountOfCats, [origin])
        match std.selectCoins amountOfCats [origin] with
        | none =>
          -- different_coins is None: None.copy() raises AttributeError
          ⟨[req1, req2], store, s, .error .attributeError⟩
        | some differentCoins =>
          match differentCoins with
          | [] => ⟨[req1, req2], store, s, .error .keyError⟩
          | catOrigin :: _ =>
            if origin.name = catOrigin.name then
              ⟨[req1, req2], store, s, .error .assertionError⟩
            else
              let launcherCoin : Coin := ⟨origin.name, .treeHash .launcherPuz, 1⟩
              let _catTail : Obj := .catTail catOrigin.name launcherCoin.name
              let info1 : DAOInfo := ⟨launcherCoin.name, s.catWalletId,
                s.proposalsList, s.parentInfo, none, none⟩
              if !cat.createSucceeds then
                ⟨[req1, req2], store, info1, .error .assertionError⟩
              else
                let wid := store.nextId
                let store1 : Store := ⟨store.nextId + 1,
                  store.recs ++ [(wid, .daoCat)]⟩
                let info2 : DAOInfo := ⟨info1.treasuryId, wid,
                  info1.proposalsList, info1.parentInfo, none, none⟩
                let treasuryInner : Obj := .treasuryPuz launcherCoin.name
                  (.treeHash _catTail) amountOfCats
                  attendanceRequiredPercentage proposalPassPercentage
                  proposalTimelock
                let fullTreasuryPuzzle : Obj := .curried launcherCoin.name treasuryInner
                let fullHash : Obj := .treeHash fullTreasuryPuzzle
                let txRecord := std.genSignedTx 1 (.treeHash .launcherPuz) fee
                  origin.name coins
                let launcherSolution := listO [fullHash, .natAtom 1, .natAtom 128]
                let launcherSb : SpendBundleT :=
                  ⟨[⟨launcherCoin, .launcherPuz, launcherSolution⟩]⟩
                let eveCoin : Coin := ⟨launcherCoin.name, fullHash, 1⟩
                let futureParent : LineageProof :=
                  ⟨eveCoin.parentCoinInfo, .treeHash treasuryInner, eveCoin.amount⟩
                let eveParent : LineageProof :=
                  ⟨launcherCoin.parentCoinInfo, launcherCoin.puzzleHash,
                   launcherCoin.amount⟩
                let info3 : DAOInfo := { info2 with parentInfo :=
                  info2.parentInfo ++ [(eveCoin.parentCoinInfo, some eveParent)] }
                let info4 : DAOInfo := { info3 with parentInfo :=
                  info3.parentInfo ++ [(eveCoin.name, some futureParent)] }
                match txRecord with
                | none => ⟨[req1, req2], store1, info4, .ok none⟩
                | some tx =>
                  match tx.spendBundle with
                  | none => ⟨[req1, req2], store1, info4, .ok none⟩
                  | some txSb =>
                    let eveSpend := generateTreasuryEveSpend eveCoin
                      fullTreasuryPuzzle treasuryInner launcherCoin
                    let fullSpend := SpendBundleT.aggregate [txSb, eveSpend, launcherSb]
                    ⟨[req1, req2], store1, info4, .ok (some fullSpend)⟩

/-- create_new_dao_and_wallet (lines 82-145): balance check, DAO wallet
record creation, generate_new_dao with attendance 10 / pass 10 /
timelock 10, and on exception or a None bundle deletion of
self.id() (the DAO wallet's own record) followed by a raise. -/
def createNewDaoAndWallet (confirmedBalance : Nat) (std : StdWallet)
    (cat : CatOracle) (store : Store) (amountOfCats fee : Nat) :
    Store × Except PyErr (Nat × DAOInfo × SpendBundleT) :=
  if amountOfCats > confirmedBalance then
    (store, .error .valueError)
  else
    let created := store.createWallet .dao
    let daoId := created.1
    let store1 := created.2
    let info0 : DAOInfo := ⟨.raw 0, 0, [], [], none, none⟩
    let g := generateNewDao std cat store1 info0 amountOfCats 10 10 10 fee
    match g.result with
    | .error e => (g.store.deleteWallet daoId, .error e)
    | .ok none => (g.store.deleteWallet daoId, .error .valueError)
    | .ok (some sb) => (g.store, .ok (daoId, g.info, sb))

/-- Oracle for generate_new_proposal's CAT wallet read (line 756-757):
cat_wallet.cat_info.my_tail.get_tree_hash(), or None when the wallet
lookup fails (the subsequent attribute access then raises). -/
structure PropOracle where
  catTailHash : Option Obj

/-- generate_new_proposal (lines 746-803).  Both add_parent calls
(lines 793-794) occur before tx_record.spend_bundle is read (line 802),
so a missing transaction raises only after the lineage entries are
recorded; on success the function ends with a bare return, yielding
None. -/
def generateNewProposal (std : StdWallet) (po : PropOracle) (s : DAOInfo)
    (proposedPuzzleHash : Obj) (fee : Nat) :
    DAOInfo × Except PyErr (Option SpendBundleT) :=
  match std.selectCoins (fee + 1) [] with
  | none => (s, .ok none)
  | some [] => (s, .error .keyError)
  | some (origin :: rest) =>
    let launcherCoin : Coin := ⟨origin.name, .treeHash .launcherPuz, 1⟩
    match po.catTailHash with
    | none => (s, .error .attributeError)
    | some tailHash =>
      let propInner : Obj := .proposalPuz launcherCoin.name tailHash
        s.treasuryId proposedPuzzleHash
      let fullPropPuzzle : Obj := .curried launcherCoin.name propInner
      let fullHash : Obj := .treeHash fullPropPuzzle
      let txRecord := std.genSignedTx 1 (.treeHash .launcherPuz) fee
        origin.name (origin :: rest)
      let eveCoin : Coin := ⟨launcherCoin.name, fullHash, 1⟩
      let futureParent : LineageProof :=
        ⟨eveCoin.parentCoinInfo, .treeHash propInner, eveCoin.amount⟩
      let eveParent : LineageProof :=
        ⟨launcherCoin.parentCoinInfo, launcherCoin.puzzleHash, launcherCoin.amount⟩
      let info2 : DAOInfo := { s with parentInfo := s.parentInfo ++
        [(eveCoin.parentCoinInfo, some eveParent), (eveCoin.name, some futureParent)] }
      match txRecord with
      | none => (info2, .error .attributeError)
      | some tx =>
        match tx.spendBundle with
        | none => (info2, .error .attributeError)
        | some _ => (info2, .ok none)

/-! ## resync_treasury_state (lines 340-472) -/

/-- The peer's answer to RequestPuzzleSolution: puzzle reveal and
solution of a spend. -/
structure PuzzleSolutionResponse where
  puzzleReveal : Obj
  solution : Obj
  deriving DecidableEq, Repr

/-- Oracle for the full-node peer: wallet_node.fetch_children(coin_id)
and wallet_node.fetch_puzzle_solution(height, coin). -/
structure Network where
  fetchChildren : Obj → List CoinState
  fetchPuzzleSolution : Nat → Coin → Option PuzzleSolutionResponse

/-- Oracle for the host wallet registry walked at lines 426-452: given a
cat tail hash, the id of the (found, converted or freshly created)
DAO CAT wallet.  The scan and in-place reclassification do not touch
dao_info fields other than cat_wallet_id, which is all resync reads
back from it. -/
structure Host where
  resolveCatWallet : Obj → Nat

/-- Modelled from the spec: chia.wallet.singleton.
get_innerpuzzle_from_puzzle is not under src/; per the spec's
curry_singleton(id, inner) interface it recovers the inner puzzle of a
singleton wrap and yields nothing on any other program. -/
def getInnerpuzzleFromPuzzle : Obj → Option Obj
  | .curried _ inner => some inner
  | _ => none

/-- Modelled from the spec: dao_utils.get_new_puzzle_from_treasury_solution
is not under src/; per the spec it decodes the new inner puzzle from the
old inner puzzle and the solution payload (a black-box PuzzleLibrary
call, here a free constructor). -/
def getNewPuzzleFromTreasurySolution (parentInner innerSolution : Obj) : Obj :=
  .decodedPuz parentInner innerSolution

/-- Modelled from the spec: dao_utils.get_cat_tail_hash_from_treasury_puzzle
is not under src/; per the spec it derives the issuance tail hash from
the treasury inner puzzle (the tail-hash parameter of
get_treasury_puzzle). -/
def getCatTailHashFromTreasuryPuzzle : Obj → Obj
  | .treasuryPuz _ tailHash _ _ _ _ => tailHash
  | p => .treeHash p

/-- parent_spend.solution.to_program().rest().rest().first() (line 414):
the inner solution of a treasury spend's full solution
(lineage_proof, my_amount, inner_solution); any shorter list raises. -/
def extractInnerSolution : Obj → Option Obj
  | .consO _ (.consO _ (.consO x _)) => some x
  | _ => none

/-- The frontier update of lines 389-390: parent_parent_coin takes the
previous frontier once one exists. -/
def advancePpc (parentCoin parentParentCoin : Option Coin) : Option Coin :=
  match parentCoin with
  | none => parentParentCoin
  | some p => some p

/-- Loop exit (break at line 354): returns the last
(children_state, child_coin) pair together with parent_parent_coin;
with no pair ever set the subsequent reads would be NameErrors (cannot
happen from resync's entry because of the pre-loop assert). -/
def walkExit (acc : Option (CoinState × Coin)) (parentParentCoin : Option Coin) :
    Except PyErr (CoinState × Coin × Option Coin) :=
  match acc with
  | some (cs, child) => .ok (cs, child, parentParentCoin)
  | none => .error .typeError

/-- The while-loop of resync_treasury_state (lines 351-392), bounded by
fuel (the Python loop would not terminate on a cyclic children oracle;
every claim concerns runs with enough fuel).  Arguments mirror the
loop's variables: parent_coin_id, parent_coin, parent_parent_coin, and
the last (children_state, child_coin) pair if one was set.  Returns
(children_state, child_coin, parent_parent_coin) at loop exit;
selecting [0] from an empty odd-amount filter is IndexError. -/
def resyncWalk (o : Network) : Nat → Obj → Option Coin → Option Coin →
    Option (CoinState × Coin) → Except PyErr (CoinState × Coin × Option Coin)
  | 0, _, _, _, _ => .error .fuelExhausted
  | fuel + 1, parentCoinId, parentCoin, parentParentCoin, acc =>
    match o.fetchChildren parentCoinId with
    | [] => walkExit acc parentParentCoin
    | c :: cr =>
      match (c :: cr).filter (fun st => st.coin.amount % 2 == 1) with
      | [] => .error .indexError
      | childrenState :: _ =>
        let childCoin := childrenState.coin
        resyncWalk o fuel childCoin.name (some childCoin)
          (advancePpc parentCoin parentParentCoin)
          (some (childrenState, childCoin))

/-- What a successful resync computes before rewriting dao_info: the tip
coin, current inner puzzle, the penultimate coin and the tree hash of
its revealed inner puzzle, and the resolved cat wallet id. -/
structure ResyncOut where
  childCoin : Coin
  currentInnerPuz : Obj
  ppc : Coin
  ppcInnerHash : Obj
  catWalletId : Nat
  deriving DecidableEq, Repr

/-- Lines 340-452 of resync_treasury_state: the pre-loop assert, the
walk, the penultimate spend fetch and the eve/steady-state decision,
and the cat-wallet resolution.  `assert children_state.created_height`
fails on both None and 0 (a falsy uint32); fetch_puzzle_solution with
parent_parent_coin still None raises inside the peer call; a reveal
that is not a singleton wrap leaves parent_inner_puz as None and every
continuation dereferences it (lines 414-418), modelled as an immediate
error; a malformed steady-state solution raises during the
rest/rest/first extraction.  All of these precede the first add_parent
(line 420). -/
def resyncCore (o : Network) (host : Host) (fuel : Nat) (tid : Obj) :
    Except PyErr ResyncOut :=
  if o.fetchChildren tid = [] then .error .assertionError
  else
    match resyncWalk o fuel tid none none none with
    | .error e => .error e
    | .ok (cs, childCoin, ppcOpt) =>
      match cs.createdHeight with
      | none => .error .assertionError
      | some h =>
        if h = 0 then .error .assertionError
        else
          match ppcOpt with
          | none => .error .attributeError
          | some ppc =>
            match o.fetchPuzzleSolution h ppc with
            | none => .error .assertionError
            | some parentSpend =>
              match getInnerpuzzleFromPuzzle parentSpend.puzzleReveal with
              | none => .error .attributeError
              | some parentInnerPuz =>
                let innerRes : Except PyErr Obj :=
                  if Obj.treeHash parentSpend.puzzleReveal = childCoin.puzzleHash then
                    .ok parentInnerPuz
                  else
                    match extractInnerSolution parentSpend.solution with
                    | none => .error .valueError
                    | some innerSolution =>
                      .ok (getNewPuzzleFromTreasurySolution parentInnerPuz innerSolution)
                match innerRes with
                | .error e => .error e
                | .ok currentInnerPuz =>
                  let catTailHash := getCatTailHashFromTreasuryPuzzle parentInnerPuz
                  .ok ⟨childCoin, currentInnerPuz, ppc, .treeHash parentInnerPuz,
                       host.resolveCatWallet catTailHash⟩

/-- resync_treasury_state.  The final persisted dao_info is the one
built at line 454: it carries the parent_info list as of line 420 (the
penultimate coin's lineage entry appended) together with the tip coin
and current inner puzzle.  The future_parent entry appended at line 468
is written into self.dao_info transiently but the save_info at line 470
overwrites self.dao_info with the line-454 record, whose parent_info
list was copied before that append, so the tip entry is dropped from
the persisted state (add_parent copies the list, so the line-454 record
is not affected by the later append). -/
def resyncTreasuryState (o : Network) (host : Host) (fuel : Nat)
    (s : DAOInfo) : Except PyErr DAOInfo :=
  match resyncCore o host fuel s.treasuryId with
  | .error e => .error e
  | .ok r =>
    .ok ⟨s.treasuryId, r.catWalletId, s.proposalsList,
         s.parentInfo ++ [(r.ppc.name,
           some ⟨r.ppc.parentCoinInfo, r.ppcInnerHash, r.ppc.amount⟩)],
         some r.childCoin, some r.currentInnerPuz⟩

/-- The transient dao_info right after the add_parent at line 468: both
the penultimate entry and the tip's future_parent entry are present,
while the treasury id, cat wallet id and current-coin fields still hold
their pre-resync values (line 437's update_wallet touches the CAT
wallet's record, not self.dao_info). -/
def resyncTransientInfo (s : DAOInfo) (r : ResyncOut) : DAOInfo :=
  ⟨s.treasuryId, s.catWalletId, s.proposalsList,
   s.parentInfo ++
     [(r.ppc.name, some ⟨r.ppc.parentCoinInfo, r.ppcInnerHash, r.ppc.amount⟩),
      (r.childCoin.name, some ⟨r.childCoin.parentCoinInfo,
        .treeHash r.currentInnerPuz, r.childCoin.amount⟩)],
   s.currentTreasuryCoin, s.currentTreasuryInnerpuz⟩

/-! ## Lineage-table consistency infrastructure (claim C4) -/

/-- The inner-puzzle hash a lineage entry for a coin with the given full
puzzle hash should carry: for a singleton wrap, the hash of the wrapped
inner puzzle; otherwise (the launcher coin case, line 666-670) the full
puzzle hash itself. -/
def stripSingletonHash : Obj → Obj
  | .treeHash (.curried _ inner) => .treeHash inner
  | h => h

/-- The unique lineage proof that may be recorded under a coin-id key:
its fields are determined by the key (coin ids are injective in the
parent id, puzzle hash and amount). -/
def keyProof : Obj → Option LineageProof
  | .coinId par ph amt => some ⟨par, stripSingletonHash ph, amt⟩
  | _ => none

/-- Every entry of the parent_info list carries exactly the proof its
key determines; two entries under one key then cannot contradict each
other. -/
def InvPI (l : List (Obj × Option LineageProof)) : Prop :=
  ∀ e ∈ l, e.2 = keyProof e.1

/-- Chain consistency, part 1: a puzzle reveal served for a coin hashes
to that coin's puzzle hash (an append-only ledger only accepts spends
whose reveal matches the coin). -/
def SpendRevealConsistent (o : Network) : Prop :=
  ∀ h c sp, o.fetchPuzzleSolution h c = some sp →
    Obj.treeHash sp.puzzleReveal = c.puzzleHash

/-- Chain consistency, part 2: a child of a spent singleton coin either
reuses the parent's full puzzle (eve spend) or is the singleton wrap of
the inner puzzle decoded from the parent's solution payload
(steady-state spend). -/
def ChildPuzzleConsistent (o : Network) : Prop :=
  ∀ h c sp pip st, o.fetchPuzzleSolution h c = some sp →
    getInnerpuzzleFromPuzzle sp.puzzleReveal = some pip →
    st ∈ o.fetchChildren (Coin.name c) →
    Obj.treeHash sp.puzzleReveal = st.coin.puzzleHash ∨
    ∃ isol x, extractInnerSolution sp.solution = some isol ∧
      st.coin.puzzleHash = Obj.treeHash (.curried x (.decodedPuz pip isol))

/-- Invariant carried through the walk loop, relating the loop
variables: parent_parent_coin is only set once parent_coin is; the
frontier id is the current parent coin's id; and the recorded
(children_state, child_coin) pair, when parent_parent_coin is set, was
fetched as a child of parent_parent_coin. -/
def WalkPre (o : Network) (pid : Obj) (pc ppc : Option Coin)
    (acc : Option (CoinState × Coin)) : Prop :=
  (pc = none → ppc = none) ∧
  (∀ q, pc = some q → pid = Coin.name q) ∧
  (∀ c chd pp, acc = some (c, chd) → ppc = some pp →
    c.coin = chd ∧ c ∈ o.fetchChildren (Coin.name pp))

/-- States of one DAO wallet reachable by any interleaving of resync
(including its transient state between the two add_parent calls) and
the two spend builders, against a fixed peer oracle but arbitrary
standard-wallet, store and CAT collaborators per step. -/
inductive Reach (o : Network) (host : Host) : DAOInfo → DAOInfo → Prop where
  | refl (s : DAOInfo) : Reach o host s s
  | resyncStep {s t u : DAOInfo} (fuel : Nat) : Reach o host s t →
      resyncTreasuryState o host fuel t = .ok u → Reach o host s u
  | resyncMidStep {s t : DAOInfo} (fuel : Nat) (r : ResyncOut) :
      Reach o host s t → resyncCore o host fuel t.treasuryId = .ok r →
      Reach o host s (resyncTransientInfo t r)
  | genDaoStep {s t : DAOInfo} (std : StdWallet) (cat : CatOracle)
      (store : Store) (a att p tl fee : Nat) : Reach o host s t →
      Reach o host s (generateNewDao std cat store t a att p tl fee).info
  | genPropStep {s t : DAOInfo} (std : StdWallet) (po : PropOracle)
      (ph : Obj) (fee : Nat) : Reach o host s t →
      Reach o host s (generateNewProposal std po t ph fee).1

/-! ## Concrete scenario objects used by witnesses and counterexamples -/

/-- Witness chain: the treasury (launcher) id. -/
def tidW : Obj := .raw 0

/-- Witness chain: the treasury inner puzzle. -/
def ipW : Obj := .raw 7

/-- Witness chain: the full singleton treasury puzzle. -/
def fullPW : Obj := .curried tidW ipW

/-- Witness chain: the eve treasury coin (child of the launcher). -/
def c1W : Coin := ⟨tidW, .treeHash fullPW, 1⟩

/-- Witness chain: the recreated treasury coin after the eve spend. -/
def c2W : Coin := ⟨Coin.name c1W, .treeHash fullPW, 1⟩

/-- Witness chain: coin state of the eve coin (spent at height 5). -/
def st1W : CoinState := ⟨c1W, some 4, some 5⟩

/-- Witness chain: coin state of the tip coin (unspent). -/
def st2W : CoinState := ⟨c2W, some 5, none⟩

/-- Witness peer oracle: a two-hop chain launcher → eve → tip where the
eve spend reveals the full treasury puzzle and recreates it
unchanged. -/
def netW : Network :=
  ⟨fun id => if id = tidW then [st1W] else if id = Coin.name c1W then [st2W] else [],
   fun h c => if h = 5 ∧ c = c1W then some ⟨fullPW, .nilO⟩ else none⟩

/-- Witness host registry: every tail resolves to cat wallet 3. -/
def hostW : Host := ⟨fun _ => 3⟩

/-- Witness initial wallet state for the chain scenarios. -/
def s0W : DAOInfo := ⟨tidW, 0, [], [], none, none⟩

/-- Witness peer oracle for the one-hop scenario of C8: the treasury id
has a single odd, unspent child and nothing else. -/
def net8W : Network :=
  ⟨fun id => if id = tidW then [st1W] else [], fun _ _ => none⟩

/-- Witness peer oracle with no children of the treasury id at all. -/
def netEmptyW : Network := ⟨fun _ => [], fun _ _ => none⟩

/-- Witness chain: the lineage entry resync records for the penultimate
coin c1W. -/
def entryW : Obj × Option LineageProof :=
  (Coin.name c1W, some ⟨tidW, .treeHash ipW, 1⟩)

/-- Witness chain: wallet state after one resync against netW. -/
def s1W : DAOInfo := ⟨tidW, 3, [], [entryW], some c2W, some ipW⟩

/-- Witness chain: wallet state after a second resync against netW (the
same lineage entry is appended again, consistently). -/
def s2W : DAOInfo := ⟨tidW, 3, [], [entryW, entryW], some c2W, some ipW⟩

/-- Concrete funding coin for spend-builder scenarios. -/
def cAW : Coin := ⟨.raw 1, .raw 2, 2000⟩

/-- Concrete CAT-minting coin for spend-builder scenarios. -/
def cBW : Coin := ⟨.raw 3, .raw 4, 1500⟩

/-- Concrete funding coin spend returned inside the standard wallet's
signed transaction. -/
def fsW : CoinSpendT := ⟨cAW, .raw 9, .nilO⟩

/-- Concrete standard wallet: serves the funding coin, then the
CAT-minting coin, and a one-spend signed transaction. -/
def stdW : StdWallet :=
  ⟨fun amt ex =>
      if amt = 1 ∧ ex = [] then some [cAW]
      else if amt = 1000 ∧ ex = [cAW] then some [cBW]
      else none,
   fun amt _ _ _ _ => if amt = 1 then some ⟨some ⟨[fsW]⟩⟩ else none⟩

/-- Concrete standard wallet whose generate_signed_transaction fails
(returns None): used to fail treasury creation after the CAT wallet
record exists. -/
def stdNoTxW : StdWallet :=
  ⟨fun amt ex =>
      if amt = 1 ∧ ex = [] then some [cAW]
      else if amt = 1000 ∧ ex = [cAW] then some [cBW]
      else none,
   fun _ _ _ _ _ => none⟩

/-! ## Theorems -/

/-- Claim C5, amended: get_confirmed_balance and get_spendable_balance
(and the other fixed balance getters) always report zero, but
get_unconfirmed_balance is not fixed at zero: it delegates to the wallet
state manager and reports whatever the manager reports for this wallet
id. -/
theorem claim_C5_amended :
    (∀ r, getConfirmedBalance r = 0) ∧ (∀ u, getSpendableBalance u = 0) ∧
    getPendingChangeBalance = 0 ∧
    (∀ f i, getUnconfirmedBalance f i = f i) :=
  ⟨fun _ => rfl, fun _ => rfl, rfl, fun _ _ => rfl⟩

/-- Claim C5 counterexample: with a wallet state manager reporting 7 for
this wallet, get_unconfirmed_balance reports 7, not 0, so the claim that
all three balance queries always report zero is false. -/
theorem claim_C5_counterexample :
    ¬ getUnconfirmedBalance (fun _ => 7) 1 = 0 := by decide

/-- Claim C9: for every amount strictly greater than zero, select_coins
returns None without invoking the external coin-selection algorithm,
because get_spendable_balance reports 0 and the amount-exceeds-spendable
guard fires first. -/
theorem claim_C9_select_coins_short_circuits (env : SelectOracle)
    (amount : Nat) (h : 0 < amount) :
    daoSelectCoins env amount = (.ok none, false) ∧
    getSpendableBalance none = 0 := by
  refine ⟨?_, rfl⟩
  unfold daoSelectCoins
  simp only [getSpendableBalance]
  rw [if_pos h]

/-- Witness for claim C9 at amount 3 with an oracle that would offer
coins if it were ever consulted. -/
theorem claim_C9_witness :
    0 < 3 ∧
    (daoSelectCoins ⟨[cAW], fun _ cs => some cs⟩ 3 = (.ok none, false) ∧
      getSpendableBalance none = 0) :=
  ⟨by decide, claim_C9_select_coins_short_circuits ⟨[cAW], fun _ cs => some cs⟩ 3 (by decide)⟩

/-- Claim C10: for every wallet state and coin, coin_added raises before
completing (the first attribute it reads, dao_info.origin_coin, does not
exist on the six-field DAOInfo record), so no DAOInfo update or lineage
append from this hook ever succeeds. -/
theorem claim_C10_coin_added_always_raises (info : DAOInfo) (coin : Coin) :
    coinAdded info coin = .error .attributeError := rfl

/-- Claim C3, amended: generate_new_dao validates only
proposal_pass_percentage before any I/O — for any pass percentage above
10000 it raises ValueError with no coin-selection request issued, no
store change and no dao_info change; attendance_required_percentage is
never validated (see the counterexample). -/
theorem claim_C3_only_pass_validated (std : StdWallet) (cat : CatOracle)
    (store : Store) (s : DAOInfo) (a att p tl fee : Nat) (hp : p > 10000) :
    generateNewDao std cat store s a att p tl fee =
      ⟨[], store, s, .error .valueError⟩ := by
  unfold generateNewDao
  rw [if_pos hp]

/-- Witness for the amended claim C3 at pass percentage 10001. -/
theorem claim_C3_witness :
    10001 > 10000 ∧
    generateNewDao stdW ⟨true⟩ ⟨0, []⟩ s0W 1000 10 10001 10 0 =
      ⟨[], ⟨0, []⟩, s0W, .error .valueError⟩ :=
  ⟨by decide, claim_C3_only_pass_validated stdW ⟨true⟩ ⟨0, []⟩ s0W 1000 10 10001 10 0 (by decide)⟩

/-- Claim C3 counterexample: with attendance_required_percentage =
10001 (out of range) the call performs both coin selections and
completes without a validation error, so the claim that out-of-range
attendance percentages are rejected before coin selection is false. -/
theorem claim_C3_counterexample :
    (generateNewDao stdW ⟨true⟩ ⟨0, []⟩ s0W 1000 10001 10 10 0).selectLog.length = 2 ∧
    (generateNewDao stdW ⟨true⟩ ⟨0, []⟩ s0W 1000 10001 10 10 0).result ≠
      .error .valueError := by decide

/-- Claim C6, amended: when generate_new_dao fails to produce a bundle
after the DAO-CAT wallet record has been created, create_new_dao_and_wallet
raises and deletes the DAO wallet's own record — the store it leaves
behind is exactly the post-generate store with the DAO wallet id
removed, so the DAO-CAT record (whose id differs) is not cleaned up. -/
theorem claim_C6_amended (confirmedBalance amountOfCats fee : Nat)
    (std : StdWallet) (cat : CatOracle) (store : Store)
    (hbal : ¬ amountOfCats > confirmedBalance)
    (hfail : (generateNewDao std cat (store.createWallet .dao).2
      ⟨.raw 0, 0, [], [], none, none⟩ amountOfCats 10 10 10 fee).result = .ok none) :
    (createNewDaoAndWallet confirmedBalance std cat store amountOfCats fee).2
      = .error .valueError ∧
    (createNewDaoAndWallet confirmedBalance std cat store amountOfCats fee).1
      = ((generateNewDao std cat (store.createWallet .dao).2
          ⟨.raw 0, 0, [], [], none, none⟩ amountOfCats 10 10 10 fee).store).deleteWallet
          (store.createWallet .dao).1 := by
  unfold createNewDaoAndWallet
  rw [if_neg hbal]
  simp only [hfail]
  constructor <;> trivial

/-- Witness for the amended claim C6: a concrete run in which the
transaction build fails after the DAO-CAT record was created. -/
theorem claim_C6_witness :
    (¬ 1000 > 5000) ∧
    (generateNewDao stdNoTxW ⟨true⟩ (((⟨0, []⟩ : Store).createWallet .dao).2)
      ⟨.raw 0, 0, [], [], none, none⟩ 1000 10 10 10 0).result = .ok none ∧
    (createNewDaoAndWallet 5000 stdNoTxW ⟨true⟩ ⟨0, []⟩ 1000 0).2
      = .error .valueError :=
  ⟨by decide, by decide,
   (claim_C6_amended 5000 1000 0 stdNoTxW ⟨true⟩ ⟨0, []⟩ (by decide) (by decide)).1⟩

/-- Claim C6 counterexample: in that run the final store still contains
the DAO-CAT wallet record (id 1) — the auxiliary token-wallet record is
not deleted, so the claim as stated is false; only the DAO wallet's own
record (id 0) is removed. -/
theorem claim_C6_counterexample :
    (createNewDaoAndWallet 5000 stdNoTxW ⟨true⟩ ⟨0, []⟩ 1000 0).1.recs
      = [(1, WType.daoCat)] ∧
    (createNewDaoAndWallet 5000 stdNoTxW ⟨true⟩ ⟨0, []⟩ 1000 0).2
      = .error .valueError := by decide

/-- Claim C2: with amount_of_cats 1000, attendance 10, pass 10,
timelock 10 and fee 0, whenever the collaborators behave (both coin
selections return a coin, the selected coins are distinct, CAT creation
succeeds and the funding transaction is a single-spend bundle), the
resulting spend bundle has exactly 3 coin-spends — the funding spend,
then the eve spend, then the launcher spend — and the treasury output
coin created by the launcher (the eve spend's coin) has amount 1 and
the launcher coin as parent. -/
theorem claim_C2_three_spends_amount_one (std : StdWallet) (cat : CatOracle)
    (store : Store) (s : DAOInfo) (origin catOrigin : Coin)
    (rest1 rest2 : List Coin) (fundingSpend : CoinSpendT)
    (h1 : std.selectCoins 1 [] = some (origin :: rest1))
    (h2 : std.selectCoins 1000 [origin] = some (catOrigin :: rest2))
    (h3 : ¬ origin.name = catOrigin.name)
    (h4 : cat.createSucceeds = true)
    (h5 : std.genSignedTx 1 (.treeHash .launcherPuz) 0 origin.name
      (origin :: rest1) = some ⟨some ⟨[fundingSpend]⟩⟩) :
    ∃ b eveCs launcherCs,
      (generateNewDao std cat store s 1000 10 10 10 0).result = .ok (some b) ∧
      b.coinSpends = [fundingSpend, eveCs, launcherCs] ∧
      b.coinSpends.length = 3 ∧
      eveCs.coin.amount = 1 ∧
      eveCs.coin.parentCoinInfo = Coin.name ⟨origin.name, .treeHash .launcherPuz, 1⟩ := by
  simp [generateNewDao, SpendBundleT.aggregate, generateTreasuryEveSpend,
    h1, h2, h3, h4, h5]

/-- Witness for claim C2: the concrete standard wallet stdW selects the
funding coin cAW then the minting coin cBW and returns a one-spend
transaction. -/
theorem claim_C2_witness :
    stdW.selectCoins 1 [] = some (cAW :: []) ∧
    stdW.selectCoins 1000 [cAW] = some (cBW :: []) ∧
    (¬ Coin.name cAW = Coin.name cBW) ∧
    (CatOracle.createSucceeds ⟨true⟩ = true) ∧
    stdW.genSignedTx 1 (.treeHash .launcherPuz) 0 (Coin.name cAW)
      (cAW :: []) = some ⟨some ⟨[fsW]⟩⟩ ∧
    (∃ b eveCs launcherCs,
      (generateNewDao stdW ⟨true⟩ ⟨0, []⟩ s0W 1000 10 10 10 0).result = .ok (some b) ∧
      b.coinSpends = [fsW, eveCs, launcherCs] ∧
      b.coinSpends.length = 3 ∧
      eveCs.coin.amount = 1 ∧
      eveCs.coin.parentCoinInfo = Coin.name ⟨Coin.name cAW, .treeHash .launcherPuz, 1⟩) :=
  ⟨by decide, by decide, by decide, rfl, by decide,
   claim_C2_three_spends_amount_one stdW ⟨true⟩ ⟨0, []⟩ s0W cAW cBW [] [] fsW
     (by decide) (by decide) (by decide) rfl (by decide)⟩

/-- Claim C1: when resync succeeds and its walk ended at tip coin
`child` with penultimate coin `ppc`, the penultimate hop's full
puzzle-reveal and solution were fetched (at the tip's creation height),
and the recorded current inner puzzle is: the reveal's inner puzzle
unchanged if the reveal's tree hash equals the tip coin's puzzle hash
(eve spend), and otherwise the puzzle decoded by the puzzle library
from the solution payload (steady-state spend). -/
theorem claim_C1_tip_eve_or_steady (o : Network) (host : Host) (fuel : Nat)
    (s sNew : DAOInfo) (cs : CoinState) (child ppc : Coin)
    (hok : resyncTreasuryState o host fuel s = .ok sNew)
    (hwalk : resyncWalk o fuel s.treasuryId none none none = .ok (cs, child, some ppc)) :
    ∃ h spend, cs.createdHeight = some h ∧
      o.fetchPuzzleSolution h ppc = some spend ∧
      ((Obj.treeHash spend.puzzleReveal = child.puzzleHash ∧
        ∃ pip, getInnerpuzzleFromPuzzle spend.puzzleReveal = some pip ∧
          sNew.currentTreasuryInnerpuz = some pip) ∨
       (¬ Obj.treeHash spend.puzzleReveal = child.puzzleHash ∧
        ∃ pip isol, getInnerpuzzleFromPuzzle spend.puzzleReveal = some pip ∧
          extractInnerSolution spend.solution = some isol ∧
          sNew.currentTreasuryInnerpuz =
            some (getNewPuzzleFromTreasurySolution pip isol))) := by
  unfold resyncTreasuryState at hok
  cases hcore : resyncCore o host fuel s.treasuryId with
  | error e => rw [hcore] at hok; cases hok
  | ok r =>
    rw [hcore] at hok
    injection hok with hok
    unfold resyncCore at hcore
    by_cases hempty : o.fetchChildren s.treasuryId = []
    · rw [if_pos hempty] at hcore; cases hcore
    · rw [if_neg hempty, hwalk] at hcore
      dsimp only at hcore
      cases hch : cs.createdHeight with
      | none => rw [hch] at hcore; cases hcore
      | some h =>
        rw [hch] at hcore
        dsimp only at hcore
        by_cases hh0 : h = 0
        · rw [if_pos hh0] at hcore; cases hcore
        · rw [if_neg hh0] at hcore
          cases hps : o.fetchPuzzleSolution h ppc with
          | none => rw [hps] at hcore; cases hcore
          | some spend =>
            rw [hps] at hcore
            dsimp only at hcore
            cases hpip : getInnerpuzzleFromPuzzle spend.puzzleReveal with
            | none => rw [hpip] at hcore; cases hcore
            | some pip =>
              rw [hpip] at hcore
              dsimp only at hcore
              refine ⟨h, spend, rfl, hps, ?_⟩
              by_cases heve : Obj.treeHash spend.puzzleReveal = child.puzzleHash
              · rw [if_pos heve] at hcore
                dsimp only at hcore
                injection hcore with hcore
                left
                refine ⟨heve, pip, hpip, ?_⟩
                rw [← hok, ← hcore]
              · rw [if_neg heve] at hcore
                cases hex : extractInnerSolution spend.solution with
                | none => rw [hex] at hcore; cases hcore
                | some isol =>
                  rw [hex] at hcore
                  dsimp only at hcore
                  injection hcore with hcore
                  right
                  refine ⟨heve, pip, isol, hpip, rfl, ?_⟩
                  rw [← hok, ← hcore]

/-- Witness for claim C1: the two-hop eve chain netW; the eve branch is
taken and the current inner puzzle stays ipW. -/
theorem claim_C1_witness :
    resyncTreasuryState netW hostW 3 s0W = .ok s1W ∧
    resyncWalk netW 3 s0W.treasuryId none none none = .ok (st2W, c2W, some c1W) ∧
    (∃ h spend, st2W.createdHeight = some h ∧
      netW.fetchPuzzleSolution h c1W = some spend ∧
      ((Obj.treeHash spend.puzzleReveal = c2W.puzzleHash ∧
        ∃ pip, getInnerpuzzleFromPuzzle spend.puzzleReveal = some pip ∧
          s1W.currentTreasuryInnerpuz = some pip) ∨
       (¬ Obj.treeHash spend.puzzleReveal = c2W.puzzleHash ∧
        ∃ pip isol, getInnerpuzzleFromPuzzle spend.puzzleReveal = some pip ∧
          extractInnerSolution spend.solution = some isol ∧
          s1W.currentTreasuryInnerpuz =
            some (getNewPuzzleFromTreasurySolution pip isol)))) :=
  ⟨by decide, by decide,
   claim_C1_tip_eve_or_steady netW hostW 3 s0W s1W st2W c2W c1W
     (by decide) (by decide)⟩

/-- Claim C7: resync is idempotent at the tip — two successful
invocations against the same oracle leave current_treasury_coin and
current_treasury_innerpuz as the first invocation set them. -/
theorem claim_C7_resync_idempotent (o : Network) (host : Host) (fuel : Nat)
    (s s1 s2 : DAOInfo)
    (h1 : resyncTreasuryState o host fuel s = .ok s1)
    (h2 : resyncTreasuryState o host fuel s1 = .ok s2) :
    s2.currentTreasuryCoin = s1.currentTreasuryCoin ∧
    s2.currentTreasuryInnerpuz = s1.currentTreasuryInnerpuz := by
  unfold resyncTreasuryState at h1 h2
  cases hc : resyncCore o host fuel s.treasuryId with
  | error e => rw [hc] at h1; cases h1
  | ok r =>
    rw [hc] at h1
    injection h1 with h1
    rw [← h1] at h2
    dsimp only at h2
    rw [hc] at h2
    injection h2 with h2
    rw [← h1, ← h2]
    exact ⟨rfl, rfl⟩

/-- Witness for claim C7: two resyncs against netW; the second leaves
the tip coin c2W and inner puzzle ipW unchanged (only the lineage list
grows by a duplicate of the same entry). -/
theorem claim_C7_witness :
    resyncTreasuryState netW hostW 3 s0W = .ok s1W ∧
    resyncTreasuryState netW hostW 3 s1W = .ok s2W ∧
    (s2W.currentTreasuryCoin = s1W.currentTreasuryCoin ∧
     s2W.currentTreasuryInnerpuz = s1W.currentTreasuryInnerpuz) :=
  ⟨by decide, by decide,
   claim_C7_resync_idempotent netW hostW 3 s0W s1W s2W (by decide) (by decide)⟩

/-- Claim C8: resync only completes after at least two hops — with no
children of the treasury id the pre-loop assertion fails, and when the
single odd unspent child makes the walk exit after one hop,
parent_parent_coin is still None at the penultimate-spend fetch, so the
call raises instead of updating state. -/
theorem claim_C8_needs_two_hops (o1 o2 : Network) (host : Host)
    (s : DAOInfo) (fuel : Nat) (cs : CoinState) (h : Nat)
    (hempty : o1.fetchChildren s.treasuryId = [])
    (hone : o2.fetchChildren s.treasuryId = [cs])
    (hodd : cs.coin.amount % 2 = 1)
    (hunspent : o2.fetchChildren (Coin.name cs.coin) = [])
    (hh : cs.createdHeight = some h) (hh0 : ¬ h = 0) :
    resyncTreasuryState o1 host fuel s = .error .assertionError ∧
    resyncTreasuryState o2 host (fuel + 2) s = .error .attributeError := by
  constructor
  · unfold resyncTreasuryState resyncCore
    rw [if_pos hempty]
  · have hwalk : resyncWalk o2 (fuel + 2) s.treasuryId none none none
        = .ok (cs, cs.coin, none) := by
      show resyncWalk o2 ((fuel + 1) + 1) s.treasuryId none none none
        = .ok (cs, cs.coin, none)
      rw [resyncWalk, hone]
      simp only [List.filter, hodd]
      show resyncWalk o2 (fuel + 1) (Coin.name cs.coin) (some cs.coin) none
        (some (cs, cs.coin)) = .ok (cs, cs.coin, none)
      rw [resyncWalk, hunspent]
      rfl
    unfold resyncTreasuryState resyncCore
    rw [if_neg (by rw [hone]; exact List.cons_ne_nil cs []), hwalk]
    dsimp only
    rw [hh]
    dsimp only
    rw [if_neg hh0]

/-- Witness for claim C8: the empty oracle for the first part and the
one-hop oracle net8W (single odd unspent child st1W, created at height
4) for the second. -/
theorem claim_C8_witness :
    netEmptyW.fetchChildren s0W.treasuryId = [] ∧
    net8W.fetchChildren s0W.treasuryId = [st1W] ∧
    st1W.coin.amount % 2 = 1 ∧
    net8W.fetchChildren (Coin.name st1W.coin) = [] ∧
    st1W.createdHeight = some 4 ∧ (¬ 4 = 0) ∧
    (resyncTreasuryState netEmptyW hostW 1 s0W = .error .assertionError ∧
     resyncTreasuryState net8W hostW 3 s0W = .error .attributeError) :=
  ⟨by decide, by decide, by decide, by decide, by decide, by decide,
   claim_C8_needs_two_hops netEmptyW net8W hostW s0W 1 st1W 4
     (by decide) (by decide) (by decide) (by decide) (by decide) (by decide)⟩

/-! ## Lineage-table consistency (claim C4) -/

/-- Appending an entry that carries its key-determined proof preserves
the table invariant. -/
theorem invPI_append {l : List (Obj × Option LineageProof)}
    {e : Obj × Option LineageProof} (hl : InvPI l) (he : e.2 = keyProof e.1) :
    InvPI (l ++ [e]) := by
  intro x hx
  rcases List.mem_append.mp hx with hx | hx
  · exact hl x hx
  · rcases List.mem_singleton.mp hx with rfl
    exact he

/-- Appending two entries that carry their key-determined proofs
preserves the table invariant. -/
theorem invPI_append_two {l : List (Obj × Option LineageProof)}
    {e1 e2 : Obj × Option LineageProof} (hl : InvPI l)
    (h1 : e1.2 = keyProof e1.1) (h2 : e2.2 = keyProof e2.1) :
    InvPI (l ++ [e1, e2]) := by
  intro x hx
  rcases List.mem_append.mp hx with hx | hx
  · exact hl x hx
  · rcases List.mem_cons.mp hx with rfl | hx
    · exact h1
    · rcases List.mem_singleton.mp hx with rfl
      exact h2

/-- Both lineage entries generate_new_dao appends (the launcher entry
under the eve coin's parent id and the future-parent entry under the eve
coin's id) carry their key-determined proofs, so the table invariant is
preserved whatever the collaborators do. -/
theorem genDao_preserves_invPI (std : StdWallet) (cat : CatOracle)
    (store : Store) (s : DAOInfo) (a att p tl fee : Nat)
    (hinv : InvPI s.parentInfo) :
    InvPI (generateNewDao std cat store s a att p tl fee).info.parentInfo := by
  unfold generateNewDao
  repeat' split
  all_goals try dsimp only
  all_goals repeat' split
  all_goals try dsimp only
  all_goals
    first
      | exact hinv
      | exact invPI_append (invPI_append hinv rfl) rfl

/-- The two lineage entries generate_new_proposal appends likewise carry
their key-determined proofs. -/
theorem genProp_preserves_invPI (std : StdWallet) (po : PropOracle)
    (s : DAOInfo) (ph : Obj) (fee : Nat) (hinv : InvPI s.parentInfo) :
    InvPI (generateNewProposal std po s ph fee).1.parentInfo := by
  unfold generateNewProposal
  repeat' split
  all_goals try dsimp only
  all_goals repeat' split
  all_goals try dsimp only
  all_goals
    first
      | exact hinv
      | exact invPI_append_two hinv rfl rfl

/-- When the walk returns with a penultimate coin, the reported tip
state is the state of the tip coin and it was fetched as a child of the
penultimate coin. -/
theorem resyncWalk_ppc_spec (o : Network) :
    ∀ fuel pid pc ppc acc cs child p,
      ((pc = none → ppc = none) ∧
       (∀ q, pc = some q → pid = Coin.name q) ∧
       (∀ c chd pp, acc = some (c, chd) → ppc = some pp →
         c.coin = chd ∧ c ∈ o.fetchChildren (Coin.name pp))) →
      resyncWalk o fuel pid pc ppc acc = .ok (cs, child, some p) →
      cs.coin = child ∧ cs ∈ o.fetchChildren (Coin.name p) := by
  intro fuel
  induction fuel with
  | zero =>
    intro pid pc ppc acc cs child p hpre hw
    rw [resyncWalk] at hw
    cases hw
  | succ n ih =>
    intro pid pc ppc acc cs child p hpre hw
    rw [resyncWalk] at hw
    cases hch : o.fetchChildren pid with
    | nil =>
      rw [hch] at hw
      dsimp only at hw
      cases acc with
      | none =>
        simp only [walkExit] at hw
        cases hw
      | some pair =>
        obtain ⟨c, chd⟩ := pair
        simp only [walkExit] at hw
        injection hw with hw
        obtain ⟨h1, h2, h3⟩ : c = cs ∧ chd = child ∧ ppc = some p := by
          have h1 := congrArg Prod.fst hw
          have h2 := congrArg (fun t => t.2.1) hw
          have h3 := congrArg (fun t => t.2.2) hw
          exact ⟨h1, h2, h3⟩
        rw [← h1, ← h2]
        exact hpre.2.2 c chd p rfl h3
    | cons c0 cr =>
      rw [hch] at hw
      dsimp only at hw
      cases hfil : (c0 :: cr).filter (fun st => st.coin.amount % 2 == 1) with
      | nil =>
        rw [hfil] at hw
        cases hw
      | cons cst rest =>
        rw [hfil] at hw
        dsimp only at hw
        have hcstmem : cst ∈ o.fetchChildren pid := by
          rw [hch]
          exact List.mem_of_mem_filter (hfil ▸ List.mem_cons_self cst rest)
        cases hpcv : pc with
        | none =>
          rw [hpcv] at hw
          simp only [advancePpc] at hw
          rw [hpre.1 hpcv] at hw
          refine ih _ _ _ _ _ _ _ ?_ hw
          refine ⟨(fun h => by cases h), (fun q hq => by injection hq with hq; rw [hq]),
            (fun c chd pp hacc hppc => nomatch hppc)⟩
        | some q =>
          rw [hpcv] at hw
          simp only [advancePpc] at hw
          refine ih _ _ _ _ _ _ _ ?_ hw
          refine ⟨(fun h => by cases h), (fun q2 hq => by injection hq with hq; rw [hq]), ?_⟩
          intro c chd pp hacc hppc
          injection hacc with hacc
          injection hppc with hppc
          obtain ⟨h1, h2⟩ : cst = c ∧ cst.coin = chd := by
            have ha := congrArg Prod.fst hacc
            have hb := congrArg Prod.snd hacc
            exact ⟨ha, hb⟩
          constructor
          · rw [← h1, ← h2]
          · rw [← h1, ← hppc, ← hpre.2.1 q hpcv]
            exact hcstmem

/-- For a chain-consistent oracle, a successful resyncCore reports the
penultimate inner-puzzle hash and the current inner puzzle that the
coins' own puzzle hashes determine: both lineage entries derived from
the result carry their key-determined proofs. -/
theorem resyncCore_entry_spec (o : Network) (host : Host) (fuel : Nat)
    (tid : Obj) (r : ResyncOut) (hR1 : SpendRevealConsistent o)
    (hR2 : ChildPuzzleConsistent o)
    (hok : resyncCore o host fuel tid = .ok r) :
    r.ppcInnerHash = stripSingletonHash r.ppc.puzzleHash ∧
    Obj.treeHash r.currentInnerPuz = stripSingletonHash r.childCoin.puzzleHash := by
  unfold resyncCore at hok
  by_cases hempty : o.fetchChildren tid = []
  · rw [if_pos hempty] at hok; cases hok
  · rw [if_neg hempty] at hok
    cases hw : resyncWalk o fuel tid none none none with
    | error e => rw [hw] at hok; cases hok
    | ok trip =>
      obtain ⟨cs, child, ppcOpt⟩ := trip
      rw [hw] at hok
      dsimp only at hok
      cases hch : cs.createdHeight with
      | none => rw [hch] at hok; cases hok
      | some h =>
        rw [hch] at hok
        dsimp only at hok
        by_cases hh0 : h = 0
        · rw [if_pos hh0] at hok; cases hok
        · rw [if_neg hh0] at hok
          cases ppcOpt with
          | none => dsimp only at hok; cases hok
          | some ppc =>
            dsimp only at hok
            cases hps : o.fetchPuzzleSolution h ppc with
            | none => rw [hps] at hok; cases hok
            | some spend =>
              rw [hps] at hok
              dsimp only at hok
              cases hpip : getInnerpuzzleFromPuzzle spend.puzzleReveal with
              | none => rw [hpip] at hok; cases hok
              | some pip =>
                rw [hpip] at hok
                dsimp only at hok
                obtain ⟨x, hrev⟩ : ∃ x, spend.puzzleReveal = .curried x pip := by
                  cases hrv : spend.puzzleReveal <;> rw [hrv] at hpip <;>
                    simp [getInnerpuzzleFromPuzzle] at hpip
                  rename_i a b
                  exact ⟨a, by rw [hpip]⟩
                have hr1 := hR1 h ppc spend hps
                by_cases heve : Obj.treeHash spend.puzzleReveal = child.puzzleHash
                · rw [if_pos heve] at hok
                  dsimp only at hok
                  injection hok with hok
                  rw [← hok]
                  dsimp only
                  constructor
                  · rw [← hr1, hrev]
                    rfl
                  · rw [← heve, hrev]
                    rfl
                · rw [if_neg heve] at hok
                  cases hex : extractInnerSolution spend.solution with
                  | none => rw [hex] at hok; cases hok
                  | some isol =>
                    rw [hex] at hok
                    dsimp only at hok
                    injection hok with hok
                    rw [← hok]
                    dsimp only
                    constructor
                    · rw [← hr1, hrev]
                      rfl
                    · have hpre0 : ((none : Option Coin) = none → (none : Option Coin) = none) ∧
                          (∀ q : Coin, (none : Option Coin) = some q → tid = Coin.name q) ∧
                          (∀ (c : CoinState) (chd pp : Coin),
                            (none : Option (CoinState × Coin)) = some (c, chd) →
                            (none : Option Coin) = some pp →
                            c.coin = chd ∧ c ∈ o.fetchChildren (Coin.name pp)) :=
                        ⟨(fun _ => rfl), (fun q hq => by cases hq),
                         (fun c chd pp hacc hppc => by cases hacc)⟩
                      have hwp := resyncWalk_ppc_spec o fuel tid none none none
                        cs child ppc hpre0 hw
                      obtain ⟨hcc, hmem⟩ := hwp
                      rcases hR2 h ppc spend pip cs hps hpip hmem with hL | hRw
                      · exact absurd (by rw [hL, hcc]) heve
                      · obtain ⟨isol2, x2, hex2, hph⟩ := hRw
                        have hiso : isol2 = isol := by
                          have := hex2.symm.trans hex
                          injection this
                        rw [hiso] at hph
                        rw [← hcc, hph]
                        rfl

/-- A successful resync appends only the penultimate coin's entry to the
persisted table, and that entry carries its key-determined proof. -/
theorem resync_preserves_invPI (o : Network) (host : Host) (fuel : Nat)
    (s sNew : DAOInfo) (hR1 : SpendRevealConsistent o)
    (hR2 : ChildPuzzleConsistent o)
    (hok : resyncTreasuryState o host fuel s = .ok sNew)
    (hinv : InvPI s.parentInfo) : InvPI sNew.parentInfo := by
  unfold resyncTreasuryState at hok
  cases hc : resyncCore o host fuel s.treasuryId with
  | error e => rw [hc] at hok; cases hok
  | ok r =>
    rw [hc] at hok
    injection hok with hok
    rw [← hok]
    dsimp only
    apply invPI_append hinv
    have hspec := (resyncCore_entry_spec o host fuel s.treasuryId r hR1 hR2 hc).1
    show some ⟨r.ppc.parentCoinInfo, r.ppcInnerHash, r.ppc.amount⟩
      = keyProof (Coin.name r.ppc)
    rw [hspec]
    rfl

/-- The transient table state between resync's two add_parent calls
also satisfies the invariant: the future-parent entry for the tip coin
carries its key-determined proof as well. -/
theorem resyncTransient_preserves_invPI (o : Network) (host : Host)
    (fuel : Nat) (s : DAOInfo) (r : ResyncOut)
    (hR1 : SpendRevealConsistent o) (hR2 : ChildPuzzleConsistent o)
    (hok : resyncCore o host fuel s.treasuryId = .ok r)
    (hinv : InvPI s.parentInfo) :
    InvPI (resyncTransientInfo s r).parentInfo := by
  obtain ⟨h1, h2⟩ := resyncCore_entry_spec o host fuel s.treasuryId r hR1 hR2 hok
  dsimp only [resyncTransientInfo]
  apply invPI_append_two hinv
  · show some ⟨r.ppc.parentCoinInfo, r.ppcInnerHash, r.ppc.amount⟩
      = keyProof (Coin.name r.ppc)
    rw [h1]
    rfl
  · show some ⟨r.childCoin.parentCoinInfo, .treeHash r.currentInnerPuz,
      r.childCoin.amount⟩ = keyProof (Coin.name r.childCoin)
    rw [h2]
    rfl

/-- Every reachable state's table satisfies the invariant, for any
interleaving of resync (including its transient states) and the spend
builders against a chain-consistent peer oracle. -/
theorem reach_preserves_invPI (o : Network) (host : Host)
    (hR1 : SpendRevealConsistent o) (hR2 : ChildPuzzleConsistent o)
    {s t : DAOInfo} (hr : Reach o host s t) (hinv : InvPI s.parentInfo) :
    InvPI t.parentInfo := by
  induction hr with
  | refl => exact hinv
  | resyncStep fuel hst hok ih =>
    exact resync_preserves_invPI o host fuel _ _ hR1 hR2 hok ih
  | resyncMidStep fuel r hst hok ih =>
    exact resyncTransient_preserves_invPI o host fuel _ r hR1 hR2 hok ih
  | genDaoStep std cat store a att p tl fee hst ih =>
    exact genDao_preserves_invPI std cat store _ a att p tl fee ih
  | genPropStep std po ph fee hst ih =>
    exact genProp_preserves_invPI std po _ ph fee ih

/-- Claim C4: over any sequence of resync and spend-construction
operations against a chain-consistent peer oracle, the lineage table
never holds two contradictory proofs for one coin identity — any two
entries recorded under the same coin id are equal (both are the proof
the coin id itself determines). -/
theorem claim_C4_no_contradictory_proofs (o : Network) (host : Host)
    (hR1 : SpendRevealConsistent o) (hR2 : ChildPuzzleConsistent o)
    (s t : DAOInfo) (hr : Reach o host s t) (hinv : InvPI s.parentInfo)
    (k : Obj) (p1 p2 : Option LineageProof)
    (hp1 : (k, p1) ∈ t.parentInfo) (hp2 : (k, p2) ∈ t.parentInfo) :
    p1 = p2 := by
  have ht := reach_preserves_invPI o host hR1 hR2 hr hinv
  exact (ht (k, p1) hp1).trans (ht (k, p2) hp2).symm

/-- The witness oracle netW is chain-consistent: the only served spend
is the eve spend of c1W, whose reveal hashes to c1W's puzzle hash. -/
theorem netW_spend_consistent : SpendRevealConsistent netW := by
  intro h c sp heq
  dsimp only [netW] at heq
  split at heq
  · next hcond =>
    injection heq with heq
    rw [← heq, hcond.2]
    rfl
  · cases heq

/-- The witness oracle netW is child-consistent: the only child of the
spent coin c1W reuses the revealed full puzzle (eve spend). -/
theorem netW_child_consistent : ChildPuzzleConsistent netW := by
  intro h c sp pip st hps hpip hmem
  dsimp only [netW] at hps
  split at hps
  · next hcond =>
    injection hps with hps
    rw [hcond.2] at hmem
    dsimp only [netW] at hmem
    rw [if_neg (by decide), if_pos rfl] at hmem
    rcases List.mem_singleton.mp hmem with rfl
    left
    rw [← hps]
    rfl
  · cases hps

/-- Witness for claim C4: two successive resyncs against netW reach the
state s2W whose table holds the same entry twice (a permitted duplicate
key), and the recorded proofs agree. -/
theorem claim_C4_witness :
    SpendRevealConsistent netW ∧ ChildPuzzleConsistent netW ∧
    Reach netW hostW s0W s2W ∧ InvPI s0W.parentInfo ∧
    (entryW.1, entryW.2) ∈ s2W.parentInfo ∧
    entryW.2 = entryW.2 := by
  have h1 : resyncTreasuryState netW hostW 3 s0W = .ok s1W := by decide
  have h2 : resyncTreasuryState netW hostW 3 s1W = .ok s2W := by decide
  have hreach : Reach netW hostW s0W s2W :=
    Reach.resyncStep 3 (Reach.resyncStep 3 (Reach.refl s0W) h1) h2
  have hinv : InvPI s0W.parentInfo := fun e he => absurd he (List.not_mem_nil e)
  have hmem : (entryW.1, entryW.2) ∈ s2W.parentInfo := by decide
  exact ⟨netW_spend_consistent, netW_child_consistent, hreach, hinv, hmem,
    claim_C4_no_contradictory_proofs netW hostW netW_spend_consistent
      netW_child_consistent s0W s2W hreach hinv entryW.1 entryW.2 entryW.2
      hmem hmem⟩

end DaoSpec
